import Mathlib

/-!
# Verification of the agent-browser daemon core

Shallow embedding of `src/daemon.ts` (daemon server, session locator) and,
for the repository files that are absent from `src/` (`actions.ts`,
`snapshot.ts`, `protocol.ts` — only their tests and callers are present),
models built from the specification's words. Claims C1–C10 are settled
against these definitions.
-/

namespace AgentBrowser

/-- Case-lowering of a string's characters (model of JS `toLowerCase`
restricted to ASCII, matching `Char.toLower`). -/
def lowerChars (s : String) : List Char := s.data.map Char.toLower

/-- `infixCheck pat l` is true iff `pat` occurs as a contiguous sublist of
`l`.  Model of JS `String.prototype.includes`. -/
def infixCheck (pat : List Char) : List Char → Bool
  | [] => pat.isEmpty
  | a :: rest => pat.isPrefixOf (a :: rest) || infixCheck pat rest

/-- Case-sensitive substring test on strings. -/
def strContains (s pat : String) : Bool := infixCheck pat.data s.data

/-- Case-insensitive substring test: both sides lowered. -/
def strContainsCI (s pat : String) : Bool := infixCheck (lowerChars pat) (lowerChars s)

/-- Model of JS `trimStart`: drop leading whitespace. -/
def trimStartStr (s : String) : String := ⟨s.data.dropWhile Char.isWhitespace⟩

/-- Model of JS `trim`: drop leading and trailing whitespace. -/
def trimStr (s : String) : String :=
  ⟨((s.data.dropWhile Char.isWhitespace).reverse.dropWhile Char.isWhitespace).reverse⟩

/-! ## Error classification (Command Executor, §4.3/§7) -/

/-- Enumerated classification of a raw automation-engine failure (§7). -/
inductive ErrorCategory where
  | blockedByOverlay
  | timeout
  | engineFailure
  deriving DecidableEq, Repr

/-- An AI-friendly error: a category plus a Response-ready message. -/
structure FriendlyError where
  category : ErrorCategory
  message : String
  deriving DecidableEq, Repr

/-- Modelled from the spec: `toAIFriendlyError` of the missing `actions.ts`.
Classifies a raw failure by case-insensitive substring inspection of its
text.  The pointer-interception signature is checked before the generic
timeout signature, so an intercepted click that also timed out is reported
as blocked, not as not-found; when the raw text mentions "cookie" the
message additionally suggests dismissing cookie banners.  Unmatched text
passes through verbatim with the ref appended for traceability. -/
def toAIFriendlyError (errText : String) (ref : String) : FriendlyError :=
  let lower := lowerChars errText
  if infixCheck "intercepts pointer events".data lower then
    { category := .blockedByOverlay
      message :=
        "Element is blocked by another element; a modal or overlay may be covering it." ++
          (if infixCheck "cookie".data lower then
            " Try dismissing cookie banners or closing the overlay first."
          else "") }
  else if infixCheck "timeout".data lower then
    { category := .timeout
      message := "Element " ++ ref ++ " not found or not visible before the timeout." }
  else
    { category := .engineFailure, message := errText ++ " (ref: " ++ ref ++ ")" }

/-! ## Accessibility Snapshot Builder (§4.4) -/

/-- A node recorded in the ref table: role, name and raw line text. -/
structure RefNode where
  role : String
  name : String
  deriving DecidableEq, Repr

/-- A snapshot: indented textual tree plus a ref table (possibly empty). -/
structure Snapshot where
  tree : String
  refs : List (String × RefNode)
  deriving DecidableEq, Repr

/-- Extract the text after the first occurrence of `openPat` up to the
next `closeCh` in a character list, if `openPat` occurs at all. -/
def afterPat (openPat : List Char) (closeCh : Char) : List Char → Option (List Char)
  | [] => none
  | a :: rest =>
    if openPat.isPrefixOf (a :: rest) then
      let after := (a :: rest).drop openPat.length
      some (after.takeWhile (· != closeCh))
    else afterPat openPat closeCh rest

/-- Split a character list at newline characters. -/
def splitLines : List Char → List (List Char)
  | [] => [[]]
  | c :: rest =>
    if c = '\n' then [] :: splitLines rest
    else
      match splitLines rest with
      | h :: t => (c :: h) :: t
      | [] => [[c]]

/-- Parse one tree line: role is the token after the dash, name the text
between double quotes, ref the token inside `[ref=...]`. -/
def parseRefLine (line : List Char) : Option (String × RefNode) :=
  match afterPat "[ref=".data ']' line with
  | none => none
  | some r =>
    let afterDash := ((line.dropWhile (· != '-')).drop 1).dropWhile (· == ' ')
    let role := afterDash.takeWhile (fun c => c != ' ' && c != ':')
    let name := (afterPat "\"".data '"' line).getD []
    some (⟨r⟩, { role := ⟨role⟩, name := ⟨name⟩ })

/-- Modelled from the spec: ref-table construction of the missing
`snapshot.ts` — scan each line of the privileged tree text for a bracketed
ref token paired with the role/name on that line. -/
def parseRefs (tree : String) : List (String × RefNode) :=
  (splitLines tree.data).filterMap parseRefLine

/-- Guard events occurring during a snapshot or a command: the two
page-level `evaluate` calls (arm / clear), the privileged full-tree
capability, and root-level aria-snapshot reads. -/
inductive SnapEv where
  | armGuard
  | clearGuard
  | snapshotForAI
  | ariaSnapshot (selector : String)
  deriving DecidableEq, Repr

/-- The page, as the snapshot builder sees it: the privileged full-tree
capability either yields ref-annotated tree text or rejects, and every
selector has a root-level aria snapshot text. -/
structure PageM where
  snapshotForAI : Except String String
  ariaSnapshot : String → String

/-- Modelled from the spec: `getEnhancedSnapshot` of the missing
`snapshot.ts`.  Selector-scoped calls read the selector's aria snapshot
and never touch the guard.  Full-page calls arm the guard, attempt the
privileged capability, clear the guard in both outcomes, and on rejection
fall back to the `:root` locator's aria snapshot without refs. -/
def getEnhancedSnapshot (page : PageM) (selector : Option String := none) :
    Snapshot × List SnapEv :=
  match selector with
  | some sel => ({ tree := page.ariaSnapshot sel, refs := [] }, [.ariaSnapshot sel])
  | none =>
    match page.snapshotForAI with
    | .ok t =>
      ({ tree := t, refs := parseRefs t }, [.armGuard, .snapshotForAI, .clearGuard])
    | .error _ =>
      ({ tree := page.ariaSnapshot ":root", refs := [] },
        [.armGuard, .snapshotForAI, .clearGuard, .ariaSnapshot ":root"])

/-- The focus-guard state (§3): process-wide, idle or armed. -/
inductive GuardSt where
  | idle
  | armed
  deriving DecidableEq, Repr

/-- How a guard event transforms the guard state: arm sets `armed`, clear
sets `idle`, the other events leave it alone. -/
def guardStep (st : GuardSt) : SnapEv → GuardSt
  | .armGuard => .armed
  | .clearGuard => .idle
  | _ => st

/-- Run a list of guard events from a starting state. -/
def runGuard (st : GuardSt) (evs : List SnapEv) : GuardSt := evs.foldl guardStep st

/-- The guard-touching events (the page-level evaluate calls) of a trace. -/
def guardCalls (evs : List SnapEv) : List SnapEv :=
  evs.filter (fun e => e = .armGuard ∨ e = .clearGuard)

/-! ## Command Executor (§4.3) -/

/-- The subaction requested on a resolved locator.  The claims exercise
the focus-mutating family (click, double-click). -/
inductive Subaction where
  | click
  | dblclick
  deriving DecidableEq, Repr

/-- A semantic finder call, carrying exactly the positional arguments the
finder is invoked with: an `Option` field records whether the trailing
options object is passed at all. -/
inductive Finder where
  | byRole (role : String) (name : Option String)
  | byText (text : String) (exact : Option Bool)
  | byLabel (label : String) (exact : Option Bool)
  | byPlaceholder (placeholder : String)
  | byAltText (text : String) (exact : Option Bool)
  | byTitle (text : String) (exact : Option Bool)
  | byTestId (testId : String)
  deriving DecidableEq, Repr

/-- How the operation's target locator was resolved. -/
inductive Target where
  | selector (s : String)
  | finder (f : Finder)
  | nthLast (base : String)
  | nthIdx (base : String) (i : Nat)
  deriving DecidableEq, Repr

/-- Observable calls the executor makes against the session: the two
guard evaluate calls, locator resolution steps, and the operation itself
performed on a resolved target. -/
inductive ExecEv where
  | armGuard
  | clearGuard
  | getLocator (s : String)
  | pageLocator (s : String)
  | finderCall (f : Finder)
  | lastCall
  | nthCall (i : Nat)
  | doOp (t : Target) (op : Subaction)
  deriving DecidableEq, Repr

/-- The executor-level commands the claims are about: direct-selector
click/double-click, a semantic finder followed by a subaction, and nth
index disambiguation followed by a subaction. -/
inductive ExecCmd where
  | click (selector : String)
  | dblclick (selector : String)
  | findAct (f : Finder) (sub : Subaction)
  | nth (selector : String) (index : Int) (sub : Subaction)
  deriving DecidableEq, Repr

/-- A Response: id echoing the command id, success flag, payload
(result or error message). -/
structure Response where
  id : String
  success : Bool
  payload : String
  deriving DecidableEq, Repr

/-- Resolution events and resolved target for a command's locator. -/
def resolveTarget : ExecCmd → List ExecEv × Target
  | .click sel => ([.getLocator sel], .selector sel)
  | .dblclick sel => ([.getLocator sel], .selector sel)
  | .findAct f _ => ([.finderCall f], .finder f)
  | .nth sel i _ =>
    if i < 0 then ([.pageLocator sel, .lastCall], .nthLast sel)
    else ([.pageLocator sel, .nthCall i.toNat], .nthIdx sel i.toNat)

/-- The operation a command requests on its resolved target. -/
def cmdOp : ExecCmd → Subaction
  | .click _ => .click
  | .dblclick _ => .dblclick
  | .findAct _ sub => sub
  | .nth _ _ sub => sub

/-- Modelled from the spec: `executeCommand` of the missing `actions.ts`,
restricted to the focus-mutating command family.  The guard is armed
before the underlying operation; `opResult` is the automation engine's
outcome for that operation.  On success the guard is deliberately left
armed and the Response reports success; on a throw the guard is cleared
exactly once and the Response carries the classified error. -/
def executeCommand (cmd : ExecCmd) (id : String) (opResult : Except String Unit) :
    Response × List ExecEv :=
  let (resEvs, target) := resolveTarget cmd
  let pre := ExecEv.armGuard :: resEvs ++ [ExecEv.doOp target (cmdOp cmd)]
  match opResult with
  | .ok _ => ({ id := id, success := true, payload := "ok" }, pre)
  | .error e =>
    ({ id := id, success := false, payload := (toAIFriendlyError e "").message },
      pre ++ [ExecEv.clearGuard])

/-- Count occurrences of one executor event in a trace. -/
def countEv (e : ExecEv) (evs : List ExecEv) : Nat := evs.count e

/-! ## Session Locator and liveness (src/daemon.ts) -/

/-- Per-session files on disk plus the parsed PID, as the liveness check
sees them.  `pidContents` is the integer parsed from the PID file
(`none` when its text does not parse as a live PID probe target). -/
structure SessionFs where
  pidPresent : Bool
  pidContents : Option Nat
  socketPresent : Bool
  portPresent : Bool
  streamPresent : Bool
  deriving DecidableEq, Repr

/-- Embeds `cleanupSocket` (daemon.ts:181): best-effort removal of the PID
file, the stream-port file, and the port file (Windows) or the socket file
(Unix). -/
def cleanupSocket (win : Bool) (fs : SessionFs) : SessionFs :=
  { fs with
    pidPresent := false
    streamPresent := false
    portPresent := if win then false else fs.portPresent
    socketPresent := if win then fs.socketPresent else false }

/-- Embeds `isDaemonRunning` (daemon.ts:148): an absent PID file reports
not running immediately; otherwise the recorded PID is probed with a
zero signal, and any probe failure (unparsable PID, absent process)
cleans up the session files and reports not running.  Returns the answer
together with the resulting file state. -/
def isDaemonRunning (win : Bool) (alive : Nat → Bool) (fs : SessionFs) :
    Bool × SessionFs :=
  if fs.pidPresent then
    match fs.pidContents with
    | none => (false, cleanupSocket win fs)
    | some pid => if alive pid then (true, fs) else (false, cleanupSocket win fs)
  else (false, fs)

/-! ## Daemon startup: bind then persist PID (src/daemon.ts:381-436) -/

/-- Outcome of one listener bind attempt. -/
inductive BindRes where
  | ok
  | addrInUse
  | otherErr
  deriving DecidableEq, Repr

/-- Observable filesystem/network events during the bind phase. -/
inductive DEv where
  | bindAttempt (addr : Nat)
  | bindOk (addr : Nat)
  | writePortFile (p : Nat)
  | writePidFile
  | cleanup
  deriving DecidableEq, Repr

/-- Embeds `tryPort` inside `startDaemon` (daemon.ts:391): attempt to bind
`port`; on an address-in-use error retry the next sequential port while
attempts remain (the source allows attempts 0..4, five in total, so
`attemptsLeft` here is `5 - attempt`); on success write the port file and
then the PID file; on final failure clean up and reject without writing a
PID file. -/
def tryPort (res : Nat → BindRes) (port : Nat) : Nat → List DEv × Bool
  | 0 => ([], false)
  | n + 1 =>
    match res port with
    | .ok => ([.bindAttempt port, .bindOk port, .writePortFile port, .writePidFile], true)
    | .addrInUse =>
      if n = 0 then ([.bindAttempt port, .cleanup], false)
      else
        let r := tryPort res (port + 1) n
        (.bindAttempt port :: r.1, r.2)
    | .otherErr => ([.bindAttempt port, .cleanup], false)

/-- The TCP (Windows) bind phase of `startDaemon`: up to five attempts
starting from the session's base port. -/
def bindTcp (res : Nat → BindRes) (basePort : Nat) : List DEv × Bool :=
  tryPort res basePort 5

/-- The Unix bind phase of `startDaemon` (daemon.ts:417): one bind attempt
on the socket path (address 0 in the model); the PID file is written only
inside the success callback. -/
def bindUnix (res : BindRes) : List DEv × Bool :=
  match res with
  | .ok => ([.bindAttempt 0, .bindOk 0, .writePidFile], true)
  | _ => ([.bindAttempt 0, .cleanup], false)

/-- Count occurrences of one bind-phase event. -/
def countDEv (e : DEv) (evs : List DEv) : Nat := evs.count e

/-! ## Daemon connection handling (src/daemon.ts:259-379) -/

/-- A daemon-level command as the codec delivers it: id and action name. -/
structure WireCmd where
  id : String
  action : String
  deriving DecidableEq, Repr

/-- Modelled from the spec: the discriminated parse result of the missing
`protocol.ts` codec — `parse` never throws; a failure may still recover
the command id. -/
inductive ParseRes where
  | ok (cmd : WireCmd)
  | fail (id : Option String) (err : String)
  deriving DecidableEq, Repr

/-- Modelled from the spec: `errorResponse` of the missing `protocol.ts`
builds a failure Response under the given id. -/
def errorResponse (id : String) (msg : String) : Response :=
  { id := id, success := false, payload := msg }

/-- What dispatching one parsed command does: either `executeCommand`
returns a Response whose id echoes the command id (§3), or dispatch
throws with a message. -/
inductive ExecRes where
  | ret (success : Bool) (payload : String)
  | threw (msg : String)
  deriving DecidableEq, Repr

/-- Embeds the auto-launch trigger (daemon.ts:298): browser not yet
launched and the action is neither launch nor close. -/
def needsAutoLaunch (launched : Bool) (cmd : WireCmd) : Bool :=
  !launched && cmd.action != "launch" && cmd.action != "close"

/-- Embeds the per-line body of the daemon's data handler
(daemon.ts:288-372): parse the line; on parse failure write one error
Response under the recovered id or the `"unknown"` sentinel; otherwise
auto-launch when needed — a launch throw propagates to the surrounding
catch, which writes one error Response under the `"error"` sentinel id —
then dispatch, a dispatch throw reaching the same catch.  Returns the
Responses written for this line. -/
def handleLine (parse : String → ParseRes) (env : WireCmd → ExecRes)
    (launched : Bool) (launchThrow : Option String) (line : String) :
    List Response :=
  match parse line with
  | .fail oid err => [errorResponse (oid.getD "unknown") err]
  | .ok cmd =>
    match (if needsAutoLaunch launched cmd then launchThrow else none) with
    | some m => [errorResponse "error" m]
    | none =>
      match env cmd with
      | .ret s p => [{ id := cmd.id, success := s, payload := p }]
      | .threw m => [errorResponse "error" m]

/-- Whether processing stops after this line: a close command whose
dispatch returned normally makes the data handler return right after
writing the close acknowledgement (daemon.ts:352-365); a throwing close
lands in the catch and the loop continues. -/
def stopsAfter (parse : String → ParseRes) (env : WireCmd → ExecRes)
    (line : String) : Bool :=
  match parse line with
  | .ok cmd =>
    cmd.action == "close" &&
      (match env cmd with | .ret _ _ => true | .threw _ => false)
  | .fail _ _ => false

/-- Embeds the line loop (daemon.ts:281): feed each complete line to the
handler in order, skipping blank lines, stopping after a successful
close.  Returns all Responses written. -/
def processLines (hl : String → List Response) (stop : String → Bool) :
    List String → List Response
  | [] => []
  | l :: ls =>
    if trimStr l = "" then processLines hl stop ls
    else hl l ++ (if stop l then [] else processLines hl stop ls)

/-- The complete, non-blank lines the loop actually accepts (in order,
up to and including a successful close). -/
def acceptedLines (stop : String → Bool) : List String → List String
  | [] => []
  | l :: ls =>
    if trimStr l = "" then acceptedLines stop ls
    else l :: (if stop l then [] else acceptedLines stop ls)

/-- The HTTP request-line verbs checked by the first-bytes filter. -/
def httpVerbs : List String :=
  ["get", "post", "put", "delete", "head", "options", "patch", "connect", "trace"]

/-- Embeds the filter regex test (daemon.ts:274): after stripping leading
whitespace, one of the HTTP verbs case-insensitively, followed by a
whitespace character. -/
def isHttpStart (s : String) : Bool :=
  let l := lowerChars (trimStartStr s)
  httpVerbs.any fun v =>
    v.data.isPrefixOf l &&
      (match l.drop v.data.length with
       | c :: _ => c.isWhitespace
       | [] => false)

/-- Per-connection state: the growing text buffer, whether the one-shot
HTTP check has run, and whether the connection was destroyed by the
filter or ended by a successful close. -/
structure ConnSt where
  buffer : String
  httpChecked : Bool
  destroyed : Bool
  closed : Bool
  deriving DecidableEq, Repr

/-- The state of a freshly accepted connection (daemon.ts:260-261). -/
def initConn : ConnSt :=
  { buffer := "", httpChecked := false, destroyed := false, closed := false }

/-- Complete lines currently in the buffer and the retained partial tail. -/
def extractLines (buf : String) : List String × String :=
  let parts := (splitLines buf.data).map (fun l => (⟨l⟩ : String))
  (parts.dropLast, parts.getLastD "")

/-- Like `processLines`, also reporting whether a successful close ended
the handler. -/
def processLinesC (hl : String → List Response) (stop : String → Bool) :
    List String → List Response × Bool
  | [] => ([], false)
  | l :: ls =>
    if trimStr l = "" then processLinesC hl stop ls
    else if stop l then (hl l, true)
    else
      let r := processLinesC hl stop ls
      (hl l ++ r.1, r.2)

/-- One data event (daemon.ts:265-374): append the chunk to the buffer; on
the connection's first data event (and only then) run the HTTP filter on
the buffer, destroying the connection with nothing written on a match;
otherwise extract and process complete lines, retaining the partial tail.
Returns the new state, the Responses written, and the number of filter
checks performed during this event. -/
def connStep (hl : String → List Response) (stop : String → Bool)
    (st : ConnSt) (chunk : String) : ConnSt × List Response × Nat :=
  if st.destroyed || st.closed then (st, [], 0)
  else
    let buf := st.buffer ++ chunk
    let checks := if st.httpChecked then 0 else 1
    if !st.httpChecked && isHttpStart buf then
      ({ st with buffer := buf, httpChecked := true, destroyed := true }, [], checks)
    else
      let el := extractLines buf
      let pr := processLinesC hl stop el.1
      ({ buffer := el.2, httpChecked := true, destroyed := false, closed := pr.2 },
        pr.1, checks)

/-- Run a connection over a sequence of data chunks, accumulating the
Responses written and the filter checks performed. -/
def connRun (hl : String → List Response) (stop : String → Bool)
    (st : ConnSt) : List String → ConnSt × List Response × Nat
  | [] => (st, [], 0)
  | c :: cs =>
    let s1 := connStep hl stop st c
    let s2 := connRun hl stop s1.1 cs
    (s2.1, s1.2.1 ++ s2.2.1, s1.2.2 + s2.2.2)

/-- `true` iff the engine call returned, `false` iff it threw. -/
def exceptOk {ε α : Type} : Except ε α → Bool
  | .ok _ => true
  | .error _ => false

/-- `true` iff every PID-file write in the trace is preceded by a
successful bind event. -/
def pidAfterBindGo (seen : Bool) : List DEv → Bool
  | [] => true
  | e :: rest =>
    match e with
    | .bindOk _ => pidAfterBindGo true rest
    | .writePidFile => seen && pidAfterBindGo seen rest
    | _ => pidAfterBindGo seen rest

/-- Every PID-file write in the trace happens after some successful bind. -/
def pidAfterBind (evs : List DEv) : Bool := pidAfterBindGo false evs

/-- Number of bind attempts in a trace. -/
def countAttempts (evs : List DEv) : Nat :=
  evs.countP fun e => match e with | .bindAttempt _ => true | _ => false

/-- The thrown message that reaches the daemon's per-line catch block, if
any: an auto-launch throw or a dispatch throw. -/
def dispatchThrow (parse : String → ParseRes) (env : WireCmd → ExecRes)
    (launched : Bool) (launchThrow : Option String) (line : String) :
    Option String :=
  match parse line with
  | .fail _ _ => none
  | .ok cmd =>
    match (if needsAutoLaunch launched cmd then launchThrow else none) with
    | some m => some m
    | none => match env cmd with | .ret _ _ => none | .threw m => some m

/-- The page of the snapshot fallback test: the privileged capability
rejects and the root aria snapshot is a one-button tree. -/
def pageC6 : PageM :=
  { snapshotForAI := .error "snapshot failed"
    ariaSnapshot := fun _ => "- button \"Submit\"" }

/-- A stale session state: no PID file, but a socket file and a
stream-port file left behind by a crash. -/
def fsStale : SessionFs :=
  { pidPresent := false, pidContents := none, socketPresent := true,
    portPresent := false, streamPresent := true }

/-- A dead session state: PID file present recording PID 7, socket and
stream files present. -/
def fsDead : SessionFs :=
  { pidPresent := true, pidContents := some 7, socketPresent := true,
    portPresent := false, streamPresent := true }

/-- A parser that recovers command id "42" and action "click" for every
line. -/
def parse42 : String → ParseRes := fun _ => .ok { id := "42", action := "click" }

/-- A dispatch environment in which every command returns successfully. -/
def envOk : WireCmd → ExecRes := fun _ => .ret true "ok"

/-- An established connection: the HTTP check has already passed. -/
def connEst : ConnSt :=
  { buffer := "", httpChecked := true, destroyed := false, closed := false }

end AgentBrowser

namespace AgentBrowser

/-- Sanity check against the test fixtures: the cookie-overlay error text
is classified as blocked-by-overlay. -/
lemma sanity_cookie_overlay_category :
    (toAIFriendlyError "<div class=\"cookie-overlay\"> intercepts pointer events"
        "@e1").category = ErrorCategory.blockedByOverlay := by
  decide

/-- Sanity check against the test fixtures: the two-line ref-annotated
tree of `snapshot.test.ts` parses into the expected ref table. -/
lemma sanity_parseRefs_menu :
    parseRefs "- menu [ref=e1]:\n  - menuitem \"Edit\" [ref=e2]"
      = [("e1", { role := "menu", name := "" }),
         ("e2", { role := "menuitem", name := "Edit" })] := by
  decide

lemma lower_intercepts :
    lowerChars "intercepts pointer events" = "intercepts pointer events".data := by
  decide

lemma lower_cookie : lowerChars "cookie" = "cookie".data := by decide

/-- C3: for every raw failure whose text indicates pointer-event
interception (case-insensitively), `toAIFriendlyError` produces a message
that does not contain "not found" and does contain both "blocked by
another element" and "modal or overlay" — even when the raw text also
mentions a timeout — and when the raw text mentions "cookie" the message
additionally contains "cookie banners". -/
theorem C3_blocked_overlay_classification (err ref : String)
    (h : strContainsCI err "intercepts pointer events" = true) :
    strContains (toAIFriendlyError err ref).message "not found" = false ∧
    strContains (toAIFriendlyError err ref).message "blocked by another element" = true ∧
    strContains (toAIFriendlyError err ref).message "modal or overlay" = true ∧
    (strContainsCI err "cookie" = true →
      strContains (toAIFriendlyError err ref).message "cookie banners" = true) := by
  unfold strContainsCI at h
  rw [lower_intercepts] at h
  cases hc : infixCheck "cookie".data (lowerChars err) with
  | false =>
    refine ⟨?_, ?_, ?_, ?_⟩ <;>
      simp only [toAIFriendlyError, h, hc, if_true, if_false, Bool.false_eq_true,
        ite_true, ite_false]
    · decide
    · decide
    · decide
    · intro hck
      unfold strContainsCI at hck
      rw [lower_cookie] at hck
      rw [hc] at hck
      exact absurd hck (by decide)
  | true =>
    refine ⟨?_, ?_, ?_, ?_⟩ <;>
      simp only [toAIFriendlyError, h, hc, if_true, if_false, ite_true, ite_false]
    · decide
    · decide
    · decide
    · intro _
      decide

/-- Witness for C3 at the cookie-banner error text from the tests. -/
theorem C3_witness :
    strContainsCI "<div class=\"cookie-overlay\"> intercepts pointer events"
        "intercepts pointer events" = true ∧
    strContains
        (toAIFriendlyError "<div class=\"cookie-overlay\"> intercepts pointer events"
          "@e1").message "not found" = false ∧
    strContains
        (toAIFriendlyError "<div class=\"cookie-overlay\"> intercepts pointer events"
          "@e1").message "cookie banners" = true := by
  have h := C3_blocked_overlay_classification
    "<div class=\"cookie-overlay\"> intercepts pointer events" "@e1" (by decide)
  exact ⟨by decide, h.1, h.2.2.2 (by decide)⟩

/-- C2: every full-page snapshot performs exactly the two page-level guard
calls — arm before the privileged capability, clear after — in both the
success and the failure branch, and the guard state returns to idle; a
selector-scoped snapshot performs zero guard calls. -/
theorem C2_snapshot_guard_balance (page : PageM) :
    guardCalls (getEnhancedSnapshot page none).2 = [.armGuard, .clearGuard] ∧
    (guardCalls (getEnhancedSnapshot page none).2).length = 2 ∧
    (getEnhancedSnapshot page none).2.take 3
      = [.armGuard, .snapshotForAI, .clearGuard] ∧
    runGuard .idle (getEnhancedSnapshot page none).2 = .idle ∧
    ∀ sel : String, guardCalls (getEnhancedSnapshot page (some sel)).2 = [] := by
  refine ⟨?_, ?_, ?_, ?_, ?_⟩ <;>
    cases h : page.snapshotForAI <;>
      simp [getEnhancedSnapshot, h, guardCalls, runGuard, guardStep, List.filter]

/-- C6: whenever the privileged full-tree capability rejects, the builder
returns the `:root` locator's aria snapshot as the tree, with no refs;
the result is non-empty whenever the root snapshot is. -/
theorem C6_snapshot_fallback (page : PageM) (err : String)
    (h : page.snapshotForAI = .error err) :
    (getEnhancedSnapshot page none).1.tree = page.ariaSnapshot ":root" ∧
    (getEnhancedSnapshot page none).1.refs = [] ∧
    (page.ariaSnapshot ":root" ≠ "" → (getEnhancedSnapshot page none).1.tree ≠ "") := by
  refine ⟨?_, ?_, ?_⟩ <;> simp [getEnhancedSnapshot, h]

/-- Witness for C6 at the test's rejecting page. -/
theorem C6_witness :
    pageC6.snapshotForAI = Except.error "snapshot failed" ∧
    (getEnhancedSnapshot pageC6 none).1.tree = "- button \"Submit\"" ∧
    (getEnhancedSnapshot pageC6 none).1.refs = [] ∧
    (getEnhancedSnapshot pageC6 none).1.tree ≠ "" := by
  have h := C6_snapshot_fallback pageC6 "snapshot failed" rfl
  exact ⟨rfl, h.1.trans rfl, h.2.1, h.2.2 (by decide)⟩

end AgentBrowser

namespace AgentBrowser

/-- C1: for every click or double-click command, the executor arms the
focus guard exactly once, as the very first call — before the underlying
operation, which runs exactly once; when the operation succeeds the
guard-clear call is never invoked and the Response reports success, and
when it throws the guard-clear call is invoked exactly once and the
Response reports failure. -/
theorem C1_click_guard_lifecycle (sel id : String) (e : Except String Unit) :
    (countEv .armGuard (executeCommand (.click sel) id e).2 = 1 ∧
     (executeCommand (.click sel) id e).2.head? = some .armGuard ∧
     countEv (.doOp (.selector sel) .click) (executeCommand (.click sel) id e).2 = 1 ∧
     countEv .clearGuard (executeCommand (.click sel) id e).2
       = (if exceptOk e then 0 else 1) ∧
     (executeCommand (.click sel) id e).1.success = exceptOk e) ∧
    (countEv .armGuard (executeCommand (.dblclick sel) id e).2 = 1 ∧
     (executeCommand (.dblclick sel) id e).2.head? = some .armGuard ∧
     countEv (.doOp (.selector sel) .dblclick) (executeCommand (.dblclick sel) id e).2 = 1 ∧
     countEv .clearGuard (executeCommand (.dblclick sel) id e).2
       = (if exceptOk e then 0 else 1) ∧
     (executeCommand (.dblclick sel) id e).1.success = exceptOk e) := by
  cases e <;>
    simp [executeCommand, resolveTarget, cmdOp, countEv, exceptOk, List.count_cons]

/-- C7: each semantic finder command calls its finder exactly once with
exactly its recorded positional arguments and then runs the requested
subaction on the resolved locator exactly once; an "nth" command with a
negative index resolves via the base locator's last accessor and a
non-negative index via its ordinal accessor, and the resolved target's
subaction runs exactly once. -/
theorem C7_finder_contracts (f : Finder) (sub : Subaction) (id : String)
    (e : Except String Unit) :
    ((executeCommand (.findAct f sub) id e).2
        = [.armGuard, .finderCall f, .doOp (.finder f) sub]
            ++ (if exceptOk e then [] else [.clearGuard]) ∧
      countEv (.finderCall f) (executeCommand (.findAct f sub) id e).2 = 1 ∧
      countEv (.doOp (.finder f) sub) (executeCommand (.findAct f sub) id e).2 = 1) ∧
    ∀ (sel : String) (i : Int),
      (executeCommand (.nth sel i sub) id e).2
          = [.armGuard, .pageLocator sel]
              ++ (if i < 0 then [.lastCall, .doOp (.nthLast sel) sub]
                  else [.nthCall i.toNat, .doOp (.nthIdx sel i.toNat) sub])
              ++ (if exceptOk e then [] else [.clearGuard]) ∧
        countEv (.doOp (if i < 0 then .nthLast sel else .nthIdx sel i.toNat) sub)
            (executeCommand (.nth sel i sub) id e).2 = 1 := by
  refine ⟨?_, ?_⟩
  · cases e <;>
      simp [executeCommand, resolveTarget, cmdOp, countEv, exceptOk, List.count_cons]
  · intro sel i
    by_cases hi : i < 0 <;> cases e <;>
      simp [executeCommand, resolveTarget, cmdOp, countEv, exceptOk, hi,
        List.count_cons]

end AgentBrowser

namespace AgentBrowser

lemma tryPort_pid_count (res : Nat → BindRes) :
    ∀ (n port : Nat),
      countDEv .writePidFile (tryPort res port n).1
        = (if (tryPort res port n).2 then 1 else 0) := by
  intro n
  induction n with
  | zero => intro port; simp [tryPort, countDEv]
  | succ n ih =>
    intro port
    cases h : res port with
    | ok => simp [tryPort, h, countDEv, List.count_cons]
    | addrInUse =>
      by_cases hn : n = 0
      · simp [tryPort, h, hn, countDEv, List.count_cons]
      · simp only [tryPort, h, hn, ite_false]
        have := ih (port + 1)
        simp only [countDEv, List.count_cons] at this ⊢
        simp [this]
    | otherErr => simp [tryPort, h, countDEv, List.count_cons]

lemma tryPort_pid_after (res : Nat → BindRes) :
    ∀ (n port : Nat) (seen : Bool),
      pidAfterBindGo seen (tryPort res port n).1 = true := by
  intro n
  induction n with
  | zero => intro port seen; simp [tryPort, pidAfterBindGo]
  | succ n ih =>
    intro port seen
    cases h : res port with
    | ok => simp [tryPort, h, pidAfterBindGo]
    | addrInUse =>
      by_cases hn : n = 0
      · simp [tryPort, h, hn, pidAfterBindGo]
      · simp only [tryPort, h, hn, ite_false]
        simpa [pidAfterBindGo] using ih (port + 1) seen
    | otherErr => simp [tryPort, h, pidAfterBindGo]

lemma tryPort_attempts (res : Nat → BindRes) :
    ∀ (n port : Nat), countAttempts (tryPort res port n).1 ≤ n := by
  intro n
  induction n with
  | zero => intro port; simp [tryPort, countAttempts]
  | succ n ih =>
    intro port
    cases h : res port with
    | ok => simp [tryPort, h, countAttempts]
    | addrInUse =>
      by_cases hn : n = 0
      · simp [tryPort, h, hn, countAttempts]
      · simp only [tryPort, h, hn, ite_false]
        have := ih (port + 1)
        simp only [countAttempts, List.countP_cons, if_true, if_false] at this ⊢
        omega
    | otherErr => simp [tryPort, h, countAttempts]

/-- C4: in both bind phases of `startDaemon`, the PID file is written
exactly once on a successful bind and never when the bind ultimately
fails; every PID-file write happens after a successful bind event; on the
TCP platform at most five sequential ports are attempted. -/
theorem C4_bind_then_pid (res : Nat → BindRes) (base : Nat) :
    countDEv .writePidFile (bindTcp res base).1
      = (if (bindTcp res base).2 then 1 else 0) ∧
    pidAfterBind (bindTcp res base).1 = true ∧
    countAttempts (bindTcp res base).1 ≤ 5 ∧
    ∀ r : BindRes,
      countDEv .writePidFile (bindUnix r).1 = (if (bindUnix r).2 then 1 else 0) ∧
      pidAfterBind (bindUnix r).1 = true := by
  refine ⟨tryPort_pid_count res 5 base, tryPort_pid_after res 5 base false,
    tryPort_attempts res 5 base, ?_⟩
  intro r
  cases r <;> simp [bindUnix, countDEv, pidAfterBind, pidAfterBindGo, List.count_cons]

/-- Counterexample to C5 as stated: when the PID file is absent,
`isDaemonRunning` reports "not running" but performs no cleanup — the
stale socket and stream files survive, so "any failure triggers cleanup
of all session files" is false on the code. -/
theorem C5_counterexample :
    (isDaemonRunning false (fun _ => false) fsStale).1 = false ∧
    (isDaemonRunning false (fun _ => false) fsStale).2 = fsStale ∧
    fsStale.socketPresent = true ∧
    fsStale.streamPresent = true := by
  decide

/-- C5 (amended): the liveness check cleans up all session files and
reports "not running" exactly when the PID file exists but the recorded
process probe fails (unparsable PID or absent process); when the PID file
is absent it reports "not running" immediately without touching the other
session files. -/
theorem C5_liveness_cleanup (win : Bool) (alive : Nat → Bool) (fs : SessionFs) :
    (fs.pidPresent = false → isDaemonRunning win alive fs = (false, fs)) ∧
    (fs.pidPresent = true → fs.pidContents = none →
      isDaemonRunning win alive fs = (false, cleanupSocket win fs)) ∧
    (∀ pid, fs.pidPresent = true → fs.pidContents = some pid → alive pid = false →
      isDaemonRunning win alive fs = (false, cleanupSocket win fs)) ∧
    (cleanupSocket win fs).pidPresent = false ∧
    (cleanupSocket win fs).streamPresent = false ∧
    (win = true → (cleanupSocket win fs).portPresent = false) ∧
    (win = false → (cleanupSocket win fs).socketPresent = false) := by
  refine ⟨?_, ?_, ?_, rfl, rfl, ?_, ?_⟩
  · intro h; simp [isDaemonRunning, h]
  · intro h1 h2; simp [isDaemonRunning, h1, h2]
  · intro pid h1 h2 h3; simp [isDaemonRunning, h1, h2, h3]
  · intro h; simp [cleanupSocket, h]
  · intro h; simp [cleanupSocket, h]

/-- Witness for the amended C5: with PID 7 dead, the check reports "not
running" and all session files are cleaned up. -/
theorem C5_witness :
    isDaemonRunning false (fun _ => false) fsDead = (false, cleanupSocket false fsDead) ∧
    (cleanupSocket false fsDead).pidPresent = false ∧
    (cleanupSocket false fsDead).streamPresent = false ∧
    (cleanupSocket false fsDead).socketPresent = false := by
  have h := C5_liveness_cleanup false (fun _ => false) fsDead
  exact ⟨h.2.2.1 7 rfl rfl rfl, h.2.2.2.1, h.2.2.2.2.1, h.2.2.2.2.2.2 rfl⟩

end AgentBrowser

namespace AgentBrowser

/-- Counterexample to C8 as stated: the line parses and the triggering
command's id "42" is recovered, yet when the auto-launch throws, the
daemon's catch block writes a Response under the sentinel id "error"
rather than the recovered id. -/
theorem C8_counterexample :
    parse42 "x" = .ok { id := "42", action := "click" } ∧
    handleLine parse42 envOk false (some "launch failed") "x"
      = [{ id := "error", success := false, payload := "launch failed" }] ∧
    ("error" : String) ≠ "42" := by
  decide

/-- C8 (amended): every Response the daemon writes for a line carries the
triggering command's id when the line parses and dispatch completes
without throwing; on a parse failure it carries the recovered id or the
"unknown" sentinel; when dispatch throws (auto-launch failure or executor
exception) it carries the "error" sentinel even though the command id may
have been recovered. -/
theorem C8_response_id (parse : String → ParseRes) (env : WireCmd → ExecRes)
    (launched : Bool) (lt : Option String) (line : String) (r : Response)
    (hmem : r ∈ handleLine parse env launched lt line) :
    (∃ oid err, parse line = .fail oid err ∧ r = errorResponse (oid.getD "unknown") err) ∨
    (∃ cmd, parse line = .ok cmd ∧
      ((dispatchThrow parse env launched lt line = none ∧ r.id = cmd.id) ∨
       (∃ m, dispatchThrow parse env launched lt line = some m ∧
          r = errorResponse "error" m))) := by
  unfold handleLine at hmem
  cases hp : parse line with
  | fail oid err =>
    simp only [hp, List.mem_singleton] at hmem
    exact Or.inl ⟨oid, err, rfl, hmem⟩
  | ok cmd =>
    simp only [hp] at hmem
    refine Or.inr ⟨cmd, rfl, ?_⟩
    cases hl2 : (if needsAutoLaunch launched cmd then lt else none) with
    | some m =>
      simp only [hl2, List.mem_singleton] at hmem
      exact Or.inr ⟨m, by simp [dispatchThrow, hp, hl2], hmem⟩
    | none =>
      simp only [hl2] at hmem
      cases he : env cmd with
      | ret s p =>
        simp only [he, List.mem_singleton] at hmem
        exact Or.inl ⟨by simp [dispatchThrow, hp, hl2, he], by rw [hmem]⟩
      | threw m =>
        simp only [he, List.mem_singleton] at hmem
        exact Or.inr ⟨m, by simp [dispatchThrow, hp, hl2, he], hmem⟩

/-- Witness for the amended C8: a successfully dispatched command's
Response carries the recovered id "42". -/
theorem C8_witness :
    (∃ oid err, parse42 "x" = .fail oid err ∧
      ({ id := "42", success := true, payload := "ok" } : Response)
        = errorResponse (oid.getD "unknown") err) ∨
    (∃ cmd, parse42 "x" = .ok cmd ∧
      ((dispatchThrow parse42 envOk true none "x" = none ∧
          Response.id { id := "42", success := true, payload := "ok" } = cmd.id) ∨
       (∃ m, dispatchThrow parse42 envOk true none "x" = some m ∧
          ({ id := "42", success := true, payload := "ok" } : Response)
            = errorResponse "error" m))) :=
  C8_response_id parse42 envOk true none "x"
    { id := "42", success := true, payload := "ok" } (by decide)

end AgentBrowser

namespace AgentBrowser

lemma str_empty_append : ∀ s : String, "" ++ s = s
  | ⟨_⟩ => rfl

lemma handleLine_len (parse : String → ParseRes) (env : WireCmd → ExecRes)
    (launched : Bool) (lt : Option String) (l : String) :
    (handleLine parse env launched lt l).length = 1 := by
  unfold handleLine
  cases hp : parse l with
  | fail oid err => rfl
  | ok cmd =>
    cases hl2 : (if needsAutoLaunch launched cmd then lt else none) with
    | some m => simp [hl2]
    | none => cases he : env cmd <;> simp [hl2, he]

lemma processLines_len (hl : String → List Response) (stop : String → Bool)
    (h1 : ∀ l, (hl l).length = 1) :
    ∀ ls, (processLines hl stop ls).length = (acceptedLines stop ls).length := by
  intro ls
  induction ls with
  | nil => rfl
  | cons l ls ih =>
    by_cases hb : trimStr l = ""
    · simp [processLines, acceptedLines, hb, ih]
    · by_cases hs : stop l = true
      · simp [processLines, acceptedLines, hb, hs, h1]
      · simp [processLines, acceptedLines, hb, hs, h1, ih, Nat.add_comm]

lemma processLinesC_len (hl : String → List Response) (stop : String → Bool)
    (h1 : ∀ l, (hl l).length = 1) :
    ∀ ls, (processLinesC hl stop ls).1.length = (acceptedLines stop ls).length := by
  intro ls
  induction ls with
  | nil => rfl
  | cons l ls ih =>
    by_cases hb : trimStr l = ""
    · simp [processLinesC, acceptedLines, hb, ih]
    · by_cases hs : stop l = true
      · simp [processLinesC, acceptedLines, hb, hs, h1]
      · simp [processLinesC, acceptedLines, hb, hs, h1, ih, Nat.add_comm]

lemma connRun_destroyed (hl : String → List Response) (stop : String → Bool) :
    ∀ (cs : List String) (st : ConnSt), st.destroyed = true →
      connRun hl stop st cs = (st, [], 0) := by
  intro cs
  induction cs with
  | nil => intro st _; rfl
  | cons c cs ih =>
    intro st h
    have hstep : connStep hl stop st c = (st, [], 0) := by
      unfold connStep
      simp [h]
    simp [connRun, hstep, ih st h]

lemma connStep_checked (hl : String → List Response) (stop : String → Bool)
    (st : ConnSt) (chunk : String) (h : st.httpChecked = true) :
    (connStep hl stop st chunk).1.httpChecked = true ∧
    (connStep hl stop st chunk).2.2 = 0 := by
  unfold connStep
  by_cases hd : (st.destroyed || st.closed) = true
  · simp [hd, h]
  · simp [hd, h]

lemma connRun_checked (hl : String → List Response) (stop : String → Bool) :
    ∀ (cs : List String) (st : ConnSt), st.httpChecked = true →
      (connRun hl stop st cs).2.2 = 0 := by
  intro cs
  induction cs with
  | nil => intro st _; rfl
  | cons c cs ih =>
    intro st h
    have hc := connStep_checked hl stop st c h
    simp [connRun, hc.2, ih _ hc.1]

/-- C9: every complete, non-blank line the daemon accepts on a connection
yields exactly one Response — at the per-line level, at the line-loop
level, and at the buffered data-event level — with the sole exception of
connections terminated by the HTTP-request filter, which write no
Response at all. -/
theorem C9_one_response_per_line (parse : String → ParseRes)
    (env : WireCmd → ExecRes) (launched : Bool) (lt : Option String) :
    (∀ lines : List String,
      (processLines (handleLine parse env launched lt) (stopsAfter parse env)
          lines).length
        = (acceptedLines (stopsAfter parse env) lines).length) ∧
    (∀ l, (handleLine parse env launched lt l).length = 1) ∧
    (∀ (st : ConnSt) (chunk : String),
      st.destroyed = false → st.closed = false → st.httpChecked = true →
      (connStep (handleLine parse env launched lt) (stopsAfter parse env)
          st chunk).2.1.length
        = (acceptedLines (stopsAfter parse env)
            (extractLines (st.buffer ++ chunk)).1).length) ∧
    (∀ (c0 : String) (cs : List String), isHttpStart c0 = true →
      (connRun (handleLine parse env launched lt) (stopsAfter parse env)
          initConn (c0 :: cs)).2.1 = []) := by
  have h1 := handleLine_len parse env launched lt
  refine ⟨processLines_len _ _ h1, h1, ?_, ?_⟩
  · intro st chunk hd hc hh
    unfold connStep
    simp only [hd, hc, Bool.or_self, Bool.false_eq_true, if_false, hh,
      Bool.not_true, Bool.false_and, ite_false]
    exact processLinesC_len _ _ h1 _
  · intro c0 cs hhttp
    have hbuf : initConn.buffer ++ c0 = c0 := str_empty_append c0
    have hstep :
        connStep (handleLine parse env launched lt) (stopsAfter parse env)
            initConn c0
          = ({ buffer := c0, httpChecked := true, destroyed := true,
               closed := false }, [], 1) := by
      unfold connStep
      simp [initConn, hbuf, hhttp]
    have hrest := connRun_destroyed (handleLine parse env launched lt)
      (stopsAfter parse env) cs
      { buffer := c0, httpChecked := true, destroyed := true, closed := false } rfl
    simp [connRun, hstep, hrest]

/-- Witness for C9 at a concrete parser, dispatcher, line, data event and
HTTP-filtered first chunk. -/
theorem C9_witness :
    (processLines (handleLine parse42 envOk true none) (stopsAfter parse42 envOk)
        ["x"]).length
      = (acceptedLines (stopsAfter parse42 envOk) ["x"]).length ∧
    (handleLine parse42 envOk true none "x").length = 1 ∧
    (connStep (handleLine parse42 envOk true none) (stopsAfter parse42 envOk)
        connEst "x\ny").2.1.length
      = (acceptedLines (stopsAfter parse42 envOk)
          (extractLines (connEst.buffer ++ "x\ny")).1).length ∧
    (connRun (handleLine parse42 envOk true none) (stopsAfter parse42 envOk)
        initConn ["GET / HTTP/1.1\r\n"]).2.1 = [] := by
  have h := C9_one_response_per_line parse42 envOk true none
  exact ⟨h.1 ["x"], h.2.1 "x", h.2.2.1 connEst "x\ny" rfl rfl rfl,
    h.2.2.2 "GET / HTTP/1.1\r\n" [] (by decide)⟩

/-- C10: a first chunk matching an HTTP request line destroys the
connection with no Response ever written on it, and the HTTP filter check
runs exactly once per connection carrying any data (zero times on a
connection that never receives data). -/
theorem C10_http_filter (hl : String → List Response) (stop : String → Bool) :
    (∀ chunks : List String,
      (connRun hl stop initConn chunks).2.2 = if chunks.isEmpty then 0 else 1) ∧
    ∀ (c0 : String) (cs : List String), isHttpStart c0 = true →
      (connRun hl stop initConn (c0 :: cs)).1.destroyed = true ∧
      (connRun hl stop initConn (c0 :: cs)).2.1 = [] := by
  constructor
  · intro chunks
    cases chunks with
    | nil => rfl
    | cons c cs =>
      simp only [List.isEmpty_cons, Bool.false_eq_true, if_false]
      have hbuf : initConn.buffer ++ c = c := str_empty_append c
      cases hF : isHttpStart c with
      | true =>
        have hstep : connStep hl stop initConn c
            = ({ buffer := c, httpChecked := true, destroyed := true,
                 closed := false }, [], 1) := by
          unfold connStep
          simp [initConn, hbuf, hF]
        have hrest := connRun_destroyed hl stop cs
          { buffer := c, httpChecked := true, destroyed := true, closed := false } rfl
        simp [connRun, hstep, hrest]
      | false =>
        have hstep : connStep hl stop initConn c
            = ({ buffer := (extractLines c).2, httpChecked := true,
                 destroyed := false,
                 closed := (processLinesC hl stop (extractLines c).1).2 },
               (processLinesC hl stop (extractLines c).1).1, 1) := by
          unfold connStep
          simp [initConn, hbuf, hF]
        have hrest := connRun_checked hl stop cs
          { buffer := (extractLines c).2, httpChecked := true, destroyed := false,
            closed := (processLinesC hl stop (extractLines c).1).2 } rfl
        simp [connRun, hstep, hrest]
  · intro c0 cs hhttp
    have hbuf : initConn.buffer ++ c0 = c0 := str_empty_append c0
    have hstep : connStep hl stop initConn c0
        = ({ buffer := c0, httpChecked := true, destroyed := true,
             closed := false }, [], 1) := by
      unfold connStep
      simp [initConn, hbuf, hhttp]
    have hrest := connRun_destroyed hl stop cs
      { buffer := c0, httpChecked := true, destroyed := true, closed := false } rfl
    constructor <;> simp [connRun, hstep, hrest]

/-- Witness for C10 at an HTTP GET request line as the first chunk. -/
theorem C10_witness :
    isHttpStart "GET / HTTP/1.1\r\n" = true ∧
    (connRun (fun _ => []) (fun _ => false) initConn
        ["GET / HTTP/1.1\r\n"]).2.2 = 1 ∧
    (connRun (fun _ => []) (fun _ => false) initConn
        ["GET / HTTP/1.1\r\n"]).1.destroyed = true ∧
    (connRun (fun _ => []) (fun _ => false) initConn
        ["GET / HTTP/1.1\r\n"]).2.1 = [] := by
  have h := C10_http_filter (fun _ => ([] : List Response)) (fun _ => false)
  have h2 := h.2 "GET / HTTP/1.1\r\n" [] (by decide)
  exact ⟨by decide, h.1 ["GET / HTTP/1.1\r\n"], h2.1, h2.2⟩

end AgentBrowser
